import Mathlib

/-!
Verification of the liquid-glass demo core (`scripts.js`).

The JavaScript numbers are modelled as exact rationals for the spring
integrator (only field operations and comparisons occur there) and as real
numbers for the optical pipeline (which uses `Math.sqrt`, `Math.pow`,
`Math.cos`, `Math.sin`).  Buffers written pixel-by-pixel are modelled
functionally: one pure function gives the RGBA value the loop body stores at
a pixel, with pixels the loops never touch keeping the initial fill.
-/

namespace LiquidGlass

/-- State of the `Spring` class: `value`, `target`, `velocity` plus the two
spring constants, all JavaScript numbers, modelled as rationals. -/
@[ext]
structure Spring where
  value : ℚ
  target : ℚ
  velocity : ℚ
  stiffness : ℚ
  damping : ℚ
  deriving Repr, DecidableEq

namespace Spring

/-- The `Spring` constructor: `value` and `target` start at the initial
value, `velocity` at 0; `stiffness` and `damping` default to 300 and 20. -/
def new (value : ℚ) (stiffness : ℚ := 300) (damping : ℚ := 20) : Spring :=
  { value := value, target := value, velocity := 0,
    stiffness := stiffness, damping := damping }

/-- `Spring.update(dt)`: semi-implicit Euler step.  Returns the new state
together with the value the method returns. -/
def update (s : Spring) (dt : ℚ) : Spring × ℚ :=
  let force := (s.target - s.value) * s.stiffness
  let dampingForce := s.velocity * s.damping
  let velocity := s.velocity + (force - dampingForce) * dt
  let value := s.value + velocity * dt
  ({ s with velocity := velocity, value := value }, value)

/-- `Spring.setTarget(t)`: plain assignment of the target. -/
def setTarget (s : Spring) (t : ℚ) : Spring :=
  { s with target := t }

/-- `Spring.isSettled()`: both the distance to the target and the velocity
are below `0.001` in absolute value. -/
def isSettled (s : Spring) : Bool :=
  decide (|s.target - s.value| < 1/1000) && decide (|s.velocity| < 1/1000)

/-- `n` consecutive calls to `update(dt)`, keeping the final state. -/
def iter (s : Spring) (dt : ℚ) : ℕ → Spring
  | 0 => s
  | n + 1 => ((iter s dt n).update dt).1

end Spring

/-- C1: one call to `Spring.update(dt)` performs exactly the semi-implicit
Euler step — the new velocity is `velocity + ((target - value)*k - velocity*c)*dt`,
the new value is `value + newVelocity*dt`, the method returns the new value,
and `target`, `stiffness`, `damping` are unchanged. -/
theorem spring_update_semi_implicit_euler (s : Spring) (dt : ℚ) :
    (s.update dt).1.velocity
        = s.velocity + ((s.target - s.value) * s.stiffness - s.velocity * s.damping) * dt
      ∧ (s.update dt).1.value = s.value + (s.update dt).1.velocity * dt
      ∧ (s.update dt).2 = (s.update dt).1.value
      ∧ (s.update dt).1.target = s.target
      ∧ (s.update dt).1.stiffness = s.stiffness
      ∧ (s.update dt).1.damping = s.damping := by
  refine ⟨rfl, rfl, rfl, rfl, rfl, rfl⟩

/-- A concrete spring with positive stiffness and damping: value 0,
target 1, velocity 0, stiffness 60, damping 60.  Under `update(1/60)` its
dynamics have the closed form `value n = 1 - (59/60)^n`. -/
def c7spring : Spring :=
  { value := 0, target := 1, velocity := 0, stiffness := 60, damping := 60 }

/-- Closed form for the iterates of `c7spring` under `dt = 1/60`. -/
lemma c7spring_iter_closed_form (n : ℕ) :
    Spring.iter c7spring (1/60) n =
      { value := 1 - (59/60 : ℚ)^n, target := 1,
        velocity := if n = 0 then 0 else (59/60 : ℚ)^(n-1),
        stiffness := 60, damping := 60 } := by
  induction n with
  | zero => simp [Spring.iter, c7spring]
  | succ n ih =>
    rw [Spring.iter, ih]
    ext
    · simp only [Spring.update]
      ring
    · rfl
    · rw [if_neg (Nat.succ_ne_zero n), Nat.add_sub_cancel]
      simp only [Spring.update]
      ring
    · rfl
    · rfl

/-- The key numeric fact: `(59/60)^n` stays above the settling tolerance
`1/1000` for every `n ≤ 300`. -/
lemma c7_pow_large {n : ℕ} (hn : n ≤ 300) : (1:ℚ)/1000 < ((59:ℚ)/60)^n := by
  have h300 : (1:ℚ)/1000 < ((59:ℚ)/60)^300 := by
    rw [div_pow, div_lt_div_iff₀ (by norm_num) (by positivity), one_mul]
    have h : (60:ℕ)^300 < 59^300 * 1000 := by decide
    exact_mod_cast h
  calc (1:ℚ)/1000 < ((59:ℚ)/60)^300 := h300
    _ ≤ ((59:ℚ)/60)^n :=
        pow_le_pow_of_le_one (by norm_num) (by norm_num) hn

/-- By step 413 the geometric decay has passed below the tolerance. -/
lemma c7_pow_small : ((59:ℚ)/60)^413 < 1/1000 := by
  rw [div_pow, div_lt_div_iff₀ (by positivity) (by norm_num), one_mul]
  have h : (59:ℕ)^413 * 1000 < 60^413 := by decide
  exact_mod_cast h

/-- C7, counterexample: the spring `c7spring` has positive stiffness and
damping, a finite initial value and velocity and a constant target, yet no
`n ≤ 300` of consecutive `update(1/60)` calls makes `isSettled()` true. -/
theorem c7_not_settled_within_300 :
    0 < c7spring.stiffness ∧ 0 < c7spring.damping ∧
      ¬ ∃ n, n ≤ 300 ∧ (Spring.iter c7spring (1/60) n).isSettled = true := by
  refine ⟨by norm_num [c7spring], by norm_num [c7spring], ?_⟩
  rintro ⟨n, hn, hs⟩
  rw [c7spring_iter_closed_form] at hs
  simp only [Spring.isSettled, Bool.and_eq_true, decide_eq_true_eq] at hs
  have hgap : |(1:ℚ) - (1 - (59/60 : ℚ)^n)| = ((59:ℚ)/60)^n := by
    rw [sub_sub_cancel, abs_of_nonneg (by positivity)]
  have h1 := hs.1
  rw [hgap] at h1
  exact absurd h1 (not_lt.2 (le_of_lt (c7_pow_large hn)))

/-- C7, amended: settling within 300 steps fails in general, but this
particular spring does settle — after 414 `update(1/60)` calls both the gap
to the target and the velocity are below the `0.001` tolerance. -/
theorem c7_settles_within_414 :
    (Spring.iter c7spring (1/60) 414).isSettled = true := by
  rw [c7spring_iter_closed_form]
  simp only [Spring.isSettled, Bool.and_eq_true, decide_eq_true_eq]
  have h413 := c7_pow_small
  have h414 : ((59:ℚ)/60)^414 < 1/1000 := by
    calc ((59:ℚ)/60)^414 = ((59:ℚ)/60)^413 * (59/60) := by ring
      _ ≤ ((59:ℚ)/60)^413 * 1 := by
          refine mul_le_mul_of_nonneg_left (by norm_num) (by positivity)
      _ = ((59:ℚ)/60)^413 := by ring
      _ < 1/1000 := h413
  constructor
  · rw [sub_sub_cancel, abs_of_nonneg (by positivity)]
    exact h414
  · simp only [show (414:ℕ) ≠ 0 by norm_num, if_false]
    rw [abs_of_nonneg (by positivity)]
    exact h413

/-- C10: a freshly constructed spring has `target = initialValue` and
`velocity = 0`, hence `isSettled()` is already true before any `setTarget`
or `update`. -/
theorem spring_new_already_settled (v k c : ℚ) :
    (Spring.new v k c).target = v
      ∧ (Spring.new v k c).velocity = 0
      ∧ (Spring.new v k c).isSettled = true := by
  refine ⟨rfl, rfl, ?_⟩
  simp [Spring.new, Spring.isSettled]

noncomputable section

/-!
The four named surface profiles of `SurfaceEquations`.  `Math.pow` with
exponent `1/4` is modelled by `Real.rpow`; integer powers by monoid powers.
-/

namespace SurfaceEquations

/-- `convex_circle: (x) => Math.sqrt(1 - Math.pow(1 - x, 2))`. -/
def convex_circle (x : ℝ) : ℝ := Real.sqrt (1 - (1 - x)^2)

/-- `convex_squircle: (x) => Math.pow(1 - Math.pow(1 - x, 4), 1 / 4)`. -/
def convex_squircle (x : ℝ) : ℝ := (1 - (1 - x)^4) ^ ((1:ℝ)/4)

/-- `concave: (x) => 1 - Math.sqrt(1 - Math.pow(x, 2))`. -/
def concave (x : ℝ) : ℝ := 1 - Real.sqrt (1 - x^2)

/-- The `lip` profile: smootherstep blend of a squeezed convex squircle and
a shifted concave arc. -/
def lip (x : ℝ) : ℝ :=
  let convex := (1 - (1 - min (x*2) 1)^4) ^ ((1:ℝ)/4)
  let concave := 1 - Real.sqrt (1 - (1 - x)^2) + 0.1
  let smootherstep := 6*x^5 - 15*x^4 + 10*x^3
  convex * (1 - smootherstep) + concave * smootherstep

end SurfaceEquations

/-- The inner `refract(normalX, normalY)` helper of
`calculateDisplacementMap1D`: vector Snell refraction of the straight-down
ray against normal `(nX, nY)` with relative index `eta`; `none` models the
JavaScript `null` returned on total internal reflection (`k < 0`). -/
def refract (eta nX nY : ℝ) : Option (ℝ × ℝ) :=
  let dot := nY
  let k := 1 - eta * eta * (1 - dot * dot)
  if k < 0 then none
  else
    some (-(eta * dot + Real.sqrt k) * nX, eta - (eta * dot + Real.sqrt k) * nY)

/-- The height `y = surfaceFn(i / samples)` evaluated at sample `i`. -/
def sampleY (f : ℝ → ℝ) (samples i : ℕ) : ℝ := f ((i:ℝ) / (samples:ℝ))

/-- The outward surface normal computed at sample `i` of the 1D loop:
forward (or backward, at the right boundary) difference of step `0.0001`,
then `(-y', -1)` normalized. -/
def sampleNormal (f : ℝ → ℝ) (samples i : ℕ) : ℝ × ℝ :=
  let x := (i:ℝ) / (samples:ℝ)
  let y := f x
  let dx : ℝ := if x < 1 then 1/10000 else -(1/10000)
  let y2 := f (max 0 (min 1 (x + dx)))
  let derivative := (y2 - y) / dx
  let magnitude := Real.sqrt (derivative * derivative + 1)
  (-derivative / magnitude, -1 / magnitude)

/-- The Snell discriminant `k = 1 - eta^2 (1 - dot^2)` that `refract`
computes at sample `i`; `k < 0` is total internal reflection. -/
def sampleK (f : ℝ → ℝ) (refractiveIndex : ℝ) (samples i : ℕ) : ℝ :=
  let eta := 1 / refractiveIndex
  let nY := (sampleNormal f samples i).2
  1 - eta * eta * (1 - nY * nY)

/-- The displacement `calculateDisplacementMap1D` pushes for sample `i`:
`0` on total internal reflection, otherwise
`refracted.x * ((y*bezelWidth + glassThickness) / refracted.y)`. -/
def sampleDisp (glassThickness bezelWidth : ℝ) (f : ℝ → ℝ)
    (refractiveIndex : ℝ) (samples i : ℕ) : ℝ :=
  let eta := 1 / refractiveIndex
  let nrm := sampleNormal f samples i
  match refract eta nrm.1 nrm.2 with
  | none => 0
  | some r =>
    let remainingHeight := sampleY f samples i * bezelWidth + glassThickness
    r.1 * (remainingHeight / r.2)

/-- `calculateDisplacementMap1D`: the table of `samples` displacements. -/
def calculateDisplacementMap1D (glassThickness bezelWidth : ℝ) (f : ℝ → ℝ)
    (refractiveIndex : ℝ) (samples : ℕ := 128) : List ℝ :=
  List.ofFn fun i : Fin samples =>
    sampleDisp glassThickness bezelWidth f refractiveIndex samples i

/-- `Math.max(...table.map(Math.abs))`, with `0` as the base of the fold
(the table entries enter through `|·|`, so the base never wins on a
non-empty table). -/
def maxAbs (l : List ℝ) : ℝ := l.foldr (fun a m => max |a| m) 0

/-- The reciprocal-of-norm quantity `-1 / sqrt(d*d + 1)` is negative. -/
lemma neg_one_div_sqrt_sq_add_one_neg (d : ℝ) : -1 / Real.sqrt (d*d + 1) < 0 := by
  have h : (0:ℝ) < Real.sqrt (d*d + 1) :=
    Real.sqrt_pos.2 (by nlinarith [mul_self_nonneg d])
  exact div_neg_of_neg_of_pos (by norm_num) h

/-- The vertical normal component produced by `sampleNormal` is negative:
the normal points downward toward the incoming ray. -/
lemma sampleNormal_snd_neg (f : ℝ → ℝ) (samples i : ℕ) :
    (sampleNormal f samples i).2 < 0 := by
  simp only [sampleNormal]
  exact neg_one_div_sqrt_sq_add_one_neg _

/-- With `eta = 1` the refracted ray is exactly the straight-through ray
`(0, 1)`: `sqrt(k) = |dot| = -normalY` cancels `eta*dot` exactly. -/
lemma refract_one (nX nY : ℝ) (h : nY ≤ 0) : refract 1 nX nY = some (0, 1) := by
  have hk : (1:ℝ) - 1 * 1 * (1 - nY * nY) = nY * nY := by ring
  simp only [refract, hk]
  rw [if_neg (not_lt.2 (mul_self_nonneg nY)), Real.sqrt_mul_self_eq_abs,
    abs_of_nonpos h]
  simp only [Option.some.injEq, Prod.mk.injEq]
  constructor <;> ring

/-- With `refractiveIndex = 1` every sample's displacement is exactly 0. -/
lemma sampleDisp_index_one (gt bw : ℝ) (f : ℝ → ℝ) (samples i : ℕ) :
    sampleDisp gt bw f 1 samples i = 0 := by
  have hr := refract_one (sampleNormal f samples i).1 (sampleNormal f samples i).2
    (le_of_lt (sampleNormal_snd_neg f samples i))
  simp [sampleDisp, one_div_one, hr]

/-- C2: for every glass thickness, bezel width, surface function and sample
count, the table produced with `refractiveIndex = 1` is all zeros — with
`eta = 1` the ray passes straight through.  In particular this holds for all
four named surface profiles. -/
theorem table_all_zero_of_index_one (gt bw : ℝ) (f : ℝ → ℝ) (samples : ℕ) :
    ∀ z ∈ calculateDisplacementMap1D gt bw f 1 samples, z = 0 := by
  intro z hz
  rw [calculateDisplacementMap1D, List.mem_ofFn] at hz
  obtain ⟨i, hi⟩ := hz
  rw [← hi]
  exact sampleDisp_index_one gt bw f samples i

/-- Witness for C2 at a concrete input: the single-sample table for the
convex circle profile contains its sample value, and that value is 0. -/
theorem table_all_zero_of_index_one_witness :
    sampleDisp 80 16 SurfaceEquations.convex_circle 1 1 0 ∈
        calculateDisplacementMap1D 80 16 SurfaceEquations.convex_circle 1 1
      ∧ sampleDisp 80 16 SurfaceEquations.convex_circle 1 1 0 = 0 := by
  have hm : sampleDisp 80 16 SurfaceEquations.convex_circle 1 1 0 ∈
      calculateDisplacementMap1D 80 16 SurfaceEquations.convex_circle 1 1 := by
    rw [calculateDisplacementMap1D, List.mem_ofFn]
    exact ⟨0, rfl⟩
  exact ⟨hm, table_all_zero_of_index_one 80 16 SurfaceEquations.convex_circle 1 _ hm⟩

/-- The convex circle profile is non-negative (it is a square root). -/
lemma convex_circle_nonneg (x : ℝ) : 0 ≤ SurfaceEquations.convex_circle x :=
  Real.sqrt_nonneg _

/-- The convex squircle profile is non-negative on `[0, 1]`. -/
lemma convex_squircle_nonneg {x : ℝ} (h0 : 0 ≤ x) (h1 : x ≤ 1) :
    0 ≤ SurfaceEquations.convex_squircle x := by
  unfold SurfaceEquations.convex_squircle
  apply Real.rpow_nonneg
  have h : (1 - x)^4 ≤ 1 := by
    calc (1 - x)^4 ≤ 1^4 := pow_le_pow_left₀ (by linarith) (by linarith) 4
      _ = 1 := one_pow 4
  linarith

/-- The refracted direction at a sample does not depend on the bezel width,
so scaling the optical path `y*b + t` monotonically scales the magnitude of
the emitted displacement. -/
lemma sampleDisp_abs_mono (gt : ℝ) (f : ℝ → ℝ) (ri : ℝ) (samples i : ℕ)
    (hgt : 0 ≤ gt) (hy : 0 ≤ sampleY f samples i) {b1 b2 : ℝ}
    (hb1 : 0 ≤ b1) (hb : b1 ≤ b2) :
    |sampleDisp gt b1 f ri samples i| ≤ |sampleDisp gt b2 f ri samples i| := by
  simp only [sampleDisp]
  cases hr : refract (1/ri) (sampleNormal f samples i).1
      (sampleNormal f samples i).2 with
  | none => simp
  | some r =>
    simp only
    have h1 : 0 ≤ sampleY f samples i * b1 + gt :=
      add_nonneg (mul_nonneg hy hb1) hgt
    have h2 : sampleY f samples i * b1 + gt ≤ sampleY f samples i * b2 + gt := by
      have := mul_le_mul_of_nonneg_left hb hy
      linarith
    have key : ∀ c : ℝ, r.1 * (c / r.2) = r.1 / r.2 * c := fun c => by ring
    rw [key, key, abs_mul, abs_mul, abs_of_nonneg h1,
      abs_of_nonneg (le_trans h1 h2)]
    exact mul_le_mul_of_nonneg_left h2 (abs_nonneg _)

/-- `maxAbs` of a sample table is monotone under pointwise domination of the
absolute entries. -/
lemma maxAbs_ofFn_mono : ∀ {n : ℕ} (g1 g2 : Fin n → ℝ),
    (∀ i, |g1 i| ≤ |g2 i|) →
      maxAbs (List.ofFn g1) ≤ maxAbs (List.ofFn g2)
  | 0, _, _, _ => by simp [maxAbs]
  | n+1, g1, g2, h => by
    rw [List.ofFn_succ, List.ofFn_succ]
    simp only [maxAbs, List.foldr_cons]
    exact max_le_max (h 0) (maxAbs_ofFn_mono _ _ fun i => h i.succ)

/-- C3: for the `convex_circle` and `convex_squircle` profiles, with
non-negative glass thickness and fixed refractive index and sample count,
the maximum absolute table value is non-decreasing in the bezel width. -/
theorem maxAbs_mono_in_bezelWidth (gt ri : ℝ) (samples : ℕ) (f : ℝ → ℝ)
    (hf : f = SurfaceEquations.convex_circle ∨ f = SurfaceEquations.convex_squircle)
    (hgt : 0 ≤ gt) {b1 b2 : ℝ} (hb1 : 0 ≤ b1) (hb : b1 ≤ b2) :
    maxAbs (calculateDisplacementMap1D gt b1 f ri samples)
      ≤ maxAbs (calculateDisplacementMap1D gt b2 f ri samples) := by
  have hy : ∀ i : Fin samples, 0 ≤ sampleY f samples (i:ℕ) := by
    intro i
    have hs : (0:ℝ) < (samples:ℝ) := by exact_mod_cast i.pos
    have hx0 : (0:ℝ) ≤ (i:ℝ)/(samples:ℝ) := by positivity
    have hx1 : ((i:ℕ):ℝ)/(samples:ℝ) ≤ 1 := by
      rw [div_le_one hs]
      exact_mod_cast le_of_lt i.isLt
    rcases hf with h | h <;> subst h
    · exact convex_circle_nonneg _
    · exact convex_squircle_nonneg hx0 hx1
  simp only [calculateDisplacementMap1D]
  exact maxAbs_ofFn_mono _ _ fun i =>
    sampleDisp_abs_mono gt f ri samples i hgt (hy i) hb1 hb

/-- Witness for C3 at a concrete input: widths 8 ≤ 16 with thickness 80,
index 3/2, 4 samples, convex circle profile. -/
theorem maxAbs_mono_in_bezelWidth_witness :
    ((0:ℝ) ≤ 80 ∧ (0:ℝ) ≤ 8 ∧ (8:ℝ) ≤ 16)
      ∧ maxAbs (calculateDisplacementMap1D 80 8 SurfaceEquations.convex_circle (3/2) 4)
        ≤ maxAbs (calculateDisplacementMap1D 80 16 SurfaceEquations.convex_circle (3/2) 4) :=
  ⟨⟨by norm_num, by norm_num, by norm_num⟩,
    maxAbs_mono_in_bezelWidth 80 (3/2) 4 _ (Or.inl rfl) (by norm_num)
      (by norm_num) (by norm_num)⟩

/-- `refract` returns `null` (here `none`) exactly when its discriminant
`k = 1 - eta^2 (1 - dot^2)` is negative. -/
lemma refract_eq_none_of_k_neg (eta nX nY : ℝ)
    (h : 1 - eta * eta * (1 - nY * nY) < 0) : refract eta nX nY = none := by
  simp only [refract]
  rw [if_pos h]

/-- C5: at every sample whose Snell discriminant is negative (total internal
reflection) the 1D sampler emits exactly 0 and completes normally — the
table still has all `samples` entries and the entry at that sample is 0. -/
theorem tir_sample_is_zero (gt bw ri : ℝ) (f : ℝ → ℝ) (samples i : ℕ)
    (hi : i < samples) (hk : sampleK f ri samples i < 0) :
    (calculateDisplacementMap1D gt bw f ri samples).length = samples
      ∧ (calculateDisplacementMap1D gt bw f ri samples).getD i 0
          = sampleDisp gt bw f ri samples i
      ∧ sampleDisp gt bw f ri samples i = 0 := by
  have hz : sampleDisp gt bw f ri samples i = 0 := by
    simp only [sampleK] at hk
    have hn := refract_eq_none_of_k_neg (1/ri) (sampleNormal f samples i).1
      (sampleNormal f samples i).2 hk
    simp only [sampleDisp]
    rw [hn]
  have hlen : (calculateDisplacementMap1D gt bw f ri samples).length = samples := by
    simp [calculateDisplacementMap1D]
  refine ⟨hlen, ?_, hz⟩
  rw [List.getD_eq_getElem _ _ (by rw [hlen]; exact hi)]
  simp only [calculateDisplacementMap1D, List.getElem_ofFn]

/-- Witness for C5 at a concrete input: a steep linear profile combined with
`refractiveIndex = 1/2` (so `eta = 2`) makes the discriminant negative at
sample 0 of a one-sample table, and the emitted entry is 0. -/
theorem tir_sample_is_zero_witness :
    ((0:ℕ) < 1 ∧ sampleK (fun x => 20000*x) (1/2) 1 0 < 0)
      ∧ (calculateDisplacementMap1D 80 16 (fun x => 20000*x) (1/2) 1).getD 0 0
          = sampleDisp 80 16 (fun x => 20000*x) (1/2) 1 0
      ∧ sampleDisp 80 16 (fun x => 20000*x) (1/2) 1 0 = 0 := by
  have hk : sampleK (fun x => 20000*x) (1/2) 1 0 < 0 := by
    have h1 : (-1 / Real.sqrt 400000001) * (-1 / Real.sqrt 400000001)
        = 1/400000001 := by
      rw [div_mul_div_comm, Real.mul_self_sqrt (by norm_num)]
      norm_num
    simp only [sampleK, sampleNormal]
    norm_num
    rw [h1]
    norm_num
  have h := tir_sample_is_zero 80 16 (1/2) (fun x => 20000*x) 1 0 (by norm_num) hk
  exact ⟨⟨by norm_num, hk⟩, h.2.1, h.2.2⟩

/-- An RGBA pixel value as the pixel loops compute it, before the byte
store; the stores clamp into `[0,255]` explicitly (R/G of the displacement
map) or by construction. -/
structure Rgba where
  r : ℝ
  g : ℝ
  b : ℝ
  a : ℝ

/-- All four channels of a pixel lie in the byte range `[0, 255]`. -/
def Rgba.inByteRange (p : Rgba) : Prop :=
  0 ≤ p.r ∧ p.r ≤ 255 ∧ 0 ≤ p.g ∧ p.g ≤ 255
    ∧ 0 ≤ p.b ∧ p.b ≤ 255 ∧ 0 ≤ p.a ∧ p.a ≤ 255

/-- `objectX = (canvasWidth - objectWidth) / 2` (and the same for `y`). -/
def objOff (canvasDim objDim : ℕ) : ℝ := ((canvasDim:ℝ) - (objDim:ℝ)) / 2

/-- The corner-relative local coordinate on one axis, shared by
`calculateDisplacementMap2D` and `calculateSpecularHighlight`: inside the
straight edge it is 0, in the two corner strips it is the offset from the
corner center. -/
def cornerCoord (objDim : ℕ) (radius : ℝ) (c : ℝ) : ℝ :=
  if c < radius then c - radius
  else if c ≥ (objDim:ℝ) - radius then c - radius - ((objDim:ℝ) - radius * 2)
  else 0

/-- `distanceToCenterSquared = x*x + y*y` of the local corner coordinates. -/
def cornerDistSq (objW objH : ℕ) (radius : ℝ) (x1 y1 : ℝ) : ℝ :=
  cornerCoord objW radius x1 * cornerCoord objW radius x1
    + cornerCoord objH radius y1 * cornerCoord objH radius y1

/-- The clamped table index
`Math.max(0, Math.min(Math.floor(ratio * len), len - 1))`. -/
def bezelIndexClamped (len : ℕ) (frac : ℝ) : ℤ :=
  max 0 (min ⌊frac * (len:ℝ)⌋ ((len:ℤ) - 1))

/-- The RGBA value the displacement loop body computes for canvas pixel
`(px, py)` when each store lands at its geometrically intended pixel (the
loop index `(x1, y1)` recovered as `(px - objectX, py - objectY)`), with
the initial fill `(128,128,0,255)` where the loop body does not store.
This describes the per-value arithmetic of the loop; where the stores
actually land — including the flattened-index aliasing when the object
overhangs the canvas — is modelled byte-exactly by
`calculateDisplacementMap2D` below. -/
def disp2DPixel (canvasW canvasH objW objH : ℕ)
    (radius bezelWidth maxDisp : ℝ) (table : List ℝ) (px py : ℕ) : Rgba :=
  let x1 : ℝ := (px:ℝ) - objOff canvasW objW
  let y1 : ℝ := (py:ℝ) - objOff canvasH objH
  if 0 ≤ x1 ∧ x1 < (objW:ℝ) ∧ 0 ≤ y1 ∧ y1 < (objH:ℝ) then
    let x := cornerCoord objW radius x1
    let y := cornerCoord objH radius y1
    let d2 := cornerDistSq objW objH radius x1 y1
    if d2 ≤ (radius + 1) * (radius + 1)
        ∧ d2 ≥ max 0 ((radius - bezelWidth) * (radius - bezelWidth)) then
      let opacity := if d2 < radius * radius then 1
        else 1 - (Real.sqrt d2 - Real.sqrt (radius * radius)) /
          (Real.sqrt ((radius + 1) * (radius + 1)) - Real.sqrt (radius * radius))
      let distanceFromCenter := Real.sqrt d2
      let cosv := if distanceFromCenter > 0 then x / distanceFromCenter else 0
      let sinv := if distanceFromCenter > 0 then y / distanceFromCenter else 0
      let bezelFrac := max 0 (min 1 ((radius - distanceFromCenter) / bezelWidth))
      let dist := table.getD (bezelIndexClamped table.length bezelFrac).toNat 0
      let dX := if maxDisp > 0 then (-cosv * dist) / maxDisp else 0
      let dY := if maxDisp > 0 then (-sinv * dist) / maxDisp else 0
      { r := max 0 (min 255 (128 + dX * 127 * opacity)),
        g := max 0 (min 255 (128 + dY * 127 * opacity)),
        b := 0, a := 255 }
    else { r := 128, g := 128, b := 0, a := 255 }
  else { r := 128, g := 128, b := 0, a := 255 }

/-- The RGBA value `calculateSpecularHighlight` leaves at pixel
`(px, py)` of its own `objectWidth × objectHeight` buffer; pixels outside
the thin edge band keep the all-zero `ImageData` initialization. -/
def specPixel (objW objH : ℕ) (radius bezelWidth specularAngle : ℝ)
    (px py : ℕ) : Rgba :=
  let specX := Real.cos specularAngle
  let specY := Real.sin specularAngle
  let x := cornerCoord objW radius (px:ℝ)
  let y := cornerCoord objH radius (py:ℝ)
  let d2 := cornerDistSq objW objH radius (px:ℝ) (py:ℝ)
  if d2 ≤ (radius + 1) * (radius + 1)
      ∧ d2 ≥ max 0 ((radius - 1.5) * (radius - 1.5)) then
    let distanceFromCenter := Real.sqrt d2
    let opacity := if d2 < radius * radius then 1
      else 1 - (distanceFromCenter - Real.sqrt (radius * radius)) /
        (Real.sqrt ((radius + 1) * (radius + 1)) - Real.sqrt (radius * radius))
    let cosv := if distanceFromCenter > 0 then x / distanceFromCenter else 0
    let sinv := if distanceFromCenter > 0 then -y / distanceFromCenter else 0
    let dotProduct := |cosv * specX + sinv * specY|
    let edgeFrac := max 0 (min 1 ((radius - distanceFromCenter) / 1.5))
    let sharpFalloff := Real.sqrt (1 - (1 - edgeFrac) * (1 - edgeFrac))
    let coefficient := dotProduct * sharpFalloff
    let color := min 255 (255 * coefficient)
    let finalOpacity := min 255 (color * coefficient * opacity)
    { r := color, g := color, b := color, a := finalOpacity }
  else { r := 0, g := 0, b := 0, a := 0 }

/-- The `isInBezel` test of the displacement loop at integer loop
coordinates `(x1, y1)`. -/
def dispInBezel (objW objH : ℕ) (radius bezelWidth : ℝ) (x1 y1 : ℕ) : Prop :=
  cornerDistSq objW objH radius (x1:ℝ) (y1:ℝ) ≤ (radius + 1) * (radius + 1)
    ∧ cornerDistSq objW objH radius (x1:ℝ) (y1:ℝ)
        ≥ max 0 ((radius - bezelWidth) * (radius - bezelWidth))

instance dispInBezelDecidable (objW objH : ℕ) (radius bezelWidth : ℝ)
    (x1 y1 : ℕ) : Decidable (dispInBezel objW objH radius bezelWidth x1 y1) := by
  unfold dispInBezel
  infer_instance

/-- The RGBA value the displacement loop body computes for an in-band loop
coordinate `(x1, y1)` — the same arithmetic as the in-band branch of
`disp2DPixel`, at the loop's own integer coordinates. -/
def dispBandValue (objW objH : ℕ) (radius bezelWidth maxDisp : ℝ)
    (table : List ℝ) (x1 y1 : ℕ) : Rgba :=
  let x := cornerCoord objW radius (x1:ℝ)
  let y := cornerCoord objH radius (y1:ℝ)
  let d2 := cornerDistSq objW objH radius (x1:ℝ) (y1:ℝ)
  let opacity := if d2 < radius * radius then 1
    else 1 - (Real.sqrt d2 - Real.sqrt (radius * radius)) /
      (Real.sqrt ((radius + 1) * (radius + 1)) - Real.sqrt (radius * radius))
  let distanceFromCenter := Real.sqrt d2
  let cosv := if distanceFromCenter > 0 then x / distanceFromCenter else 0
  let sinv := if distanceFromCenter > 0 then y / distanceFromCenter else 0
  let bezelFrac := max 0 (min 1 ((radius - distanceFromCenter) / bezelWidth))
  let dist := table.getD (bezelIndexClamped table.length bezelFrac).toNat 0
  let dX := if maxDisp > 0 then (-cosv * dist) / maxDisp else 0
  let dY := if maxDisp > 0 then (-sinv * dist) / maxDisp else 0
  { r := max 0 (min 255 (128 + dX * 127 * opacity)),
    g := max 0 (min 255 (128 + dY * 127 * opacity)),
    b := 0, a := 255 }

/-- The byte index the loop stores the R channel at:
`idx = ((objectY + y1) * canvasWidth + objectX + x1) * 4`, where
`objectX = (canvasWidth - objectWidth)/2` and `objectY` likewise can be
negative or half-integral; four times that flat position is always the
integer below (the G, B, A channels go to the three following bytes). -/
def dispByteIdx (canvasW canvasH objW objH : ℕ) (x1 y1 : ℕ) : ℤ :=
  2 * (((canvasH:ℤ) - (objH:ℤ) + 2*(y1:ℤ)) * (canvasW:ℤ)
    + ((canvasW:ℤ) - (objW:ℤ)) + 2*(x1:ℤ))

/-- One `imageData.data[i] = v` store on the `Uint8ClampedArray`: stores at
integer indices inside the buffer, silently dropped outside. -/
def writeByte (buf : List ℝ) (i : ℤ) (v : ℝ) : List ℝ :=
  if 0 ≤ i ∧ i < (buf.length : ℤ) then buf.set i.toNat v else buf

/-- The initial fill of the displacement `ImageData`: bytes
`128,128,0,255` repeating. -/
def dispInitBytes (canvasW canvasH : ℕ) : List ℝ :=
  List.ofFn fun k : Fin (4 * (canvasW * canvasH)) =>
    if (k:ℕ) % 4 = 0 then 128 else if (k:ℕ) % 4 = 1 then 128
    else if (k:ℕ) % 4 = 2 then 0 else 255

/-- One iteration of the displacement loop body: if the pixel is in the
bezel band, store its four channel bytes at the JS flat index (out-of-range
stores dropped); otherwise leave the buffer unchanged. -/
def dispApplyWrite (canvasW canvasH objW objH : ℕ)
    (radius bezelWidth maxDisp : ℝ) (table : List ℝ) (buf : List ℝ)
    (x1 y1 : ℕ) : List ℝ :=
  if dispInBezel objW objH radius bezelWidth x1 y1 then
    let v := dispBandValue objW objH radius bezelWidth maxDisp table x1 y1
    let i := dispByteIdx canvasW canvasH objW objH x1 y1
    writeByte (writeByte (writeByte (writeByte buf i v.r) (i+1) v.g) (i+2) v.b)
      (i+3) v.a
  else buf

/-- The full `calculateDisplacementMap2D` byte buffer (`ImageData.data`):
the initial fill, then the double loop's stores in source order (`y1`
outer, `x1` inner), each at the JS flattened byte index — including the
aliasing this index arithmetic produces when the object overhangs the
canvas. -/
def calculateDisplacementMap2D (canvasW canvasH objW objH : ℕ)
    (radius bezelWidth maxDisp : ℝ) (table : List ℝ) : List ℝ :=
  (List.range objH).foldl (fun buf y1 =>
    (List.range objW).foldl
      (fun buf2 x1 => dispApplyWrite canvasW canvasH objW objH radius
        bezelWidth maxDisp table buf2 x1 y1) buf)
    (dispInitBytes canvasW canvasH)

/-- The full `calculateSpecularHighlight` buffer in row-major RGBA order. -/
def calculateSpecularHighlight (objW objH : ℕ) (radius bezelWidth : ℝ)
    (specularAngle : ℝ := Real.pi / 3) : List Rgba :=
  List.ofFn fun k : Fin (objH * objW) =>
    specPixel objW objH radius bezelWidth specularAngle
      ((k:ℕ) % objW) ((k:ℕ) / objW)

/-- Every entry of the specular buffer is the value of `specPixel` at some
pixel, so per-pixel facts cover the whole buffer. -/
lemma spec_buffer_entries (objW objH : ℕ) (radius bezelWidth angle : ℝ) :
    ∀ p ∈ calculateSpecularHighlight objW objH radius bezelWidth angle,
      ∃ px py : ℕ, p = specPixel objW objH radius bezelWidth angle px py := by
  intro p hp
  rw [calculateSpecularHighlight, List.mem_ofFn] at hp
  obtain ⟨k, hk⟩ := hp
  exact ⟨_, _, hk.symm⟩

/-- `state.maximumDisplacement || 1`: the divisor `updateFilter` hands to
`calculateDisplacementMap2D`, with a zero maximum replaced by 1. -/
def normDivisor (table : List ℝ) : ℝ :=
  if maxAbs table = 0 then 1 else maxAbs table

/-- A byte store keeps the buffer length. -/
lemma writeByte_length (buf : List ℝ) (i : ℤ) (v : ℝ) :
    (writeByte buf i v).length = buf.length := by
  unfold writeByte
  split_ifs with h
  · exact List.length_set buf _ _
  · rfl

/-- A byte store does not change any other byte. -/
lemma writeByte_getElem?_ne (buf : List ℝ) (i : ℤ) (v : ℝ) (b : ℕ)
    (hb : (b:ℤ) ≠ i) : (writeByte buf i v)[b]? = buf[b]? := by
  unfold writeByte
  split_ifs with h
  · exact List.getElem?_set_ne (by omega)
  · rfl

/-- A byte store inside the buffer sets exactly its target byte. -/
lemma writeByte_getElem?_eq (buf : List ℝ) (i : ℤ) (v : ℝ) (b : ℕ)
    (hb : (b:ℤ) = i) (hlen : b < buf.length) :
    (writeByte buf i v)[b]? = some v := by
  unfold writeByte
  rw [if_pos ⟨by omega, by omega⟩]
  have h : i.toNat = b := by omega
  rw [h]
  exact List.getElem?_set_eq_of_lt v hlen

/-- One loop iteration keeps the buffer length. -/
lemma dispApplyWrite_length (canvasW canvasH objW objH : ℕ)
    (radius bezelWidth maxDisp : ℝ) (table buf : List ℝ) (x1 y1 : ℕ) :
    (dispApplyWrite canvasW canvasH objW objH radius bezelWidth maxDisp
        table buf x1 y1).length = buf.length := by
  unfold dispApplyWrite
  split_ifs with h
  · simp only [writeByte_length]
  · rfl

/-- A loop iteration leaves byte `b` alone when it is not in the bezel band
or its four target bytes all miss `b`. -/
lemma dispApplyWrite_getElem?_miss {canvasW canvasH objW objH : ℕ}
    {radius bezelWidth maxDisp : ℝ} {table buf : List ℝ} {x1 y1 b : ℕ}
    (hb : dispInBezel objW objH radius bezelWidth x1 y1 →
      ((b:ℤ) < dispByteIdx canvasW canvasH objW objH x1 y1
        ∨ dispByteIdx canvasW canvasH objW objH x1 y1 + 3 < (b:ℤ))) :
    (dispApplyWrite canvasW canvasH objW objH radius bezelWidth maxDisp
        table buf x1 y1)[b]? = buf[b]? := by
  unfold dispApplyWrite
  split_ifs with hin
  · have hm := hb hin
    rw [writeByte_getElem?_ne _ _ _ _ (by omega),
      writeByte_getElem?_ne _ _ _ _ (by omega),
      writeByte_getElem?_ne _ _ _ _ (by omega),
      writeByte_getElem?_ne _ _ _ _ (by omega)]
  · rfl

/-- An in-band loop iteration stores the loop body's G channel at the byte
one past its flat index. -/
lemma dispApplyWrite_getElem?_g {canvasW canvasH objW objH : ℕ}
    {radius bezelWidth maxDisp : ℝ} {table buf : List ℝ} {x1 y1 b : ℕ}
    (hin : dispInBezel objW objH radius bezelWidth x1 y1)
    (hb : (b:ℤ) = dispByteIdx canvasW canvasH objW objH x1 y1 + 1)
    (hlen : b < buf.length) :
    (dispApplyWrite canvasW canvasH objW objH radius bezelWidth maxDisp
        table buf x1 y1)[b]?
      = some (dispBandValue objW objH radius bezelWidth maxDisp table x1 y1).g := by
  unfold dispApplyWrite
  rw [if_pos hin]
  rw [writeByte_getElem?_ne _ _ _ _ (by omega),
    writeByte_getElem?_ne _ _ _ _ (by omega)]
  exact writeByte_getElem?_eq _ _ _ _ hb (by rw [writeByte_length]; exact hlen)

/-- Folding loop iterations that all leave byte `b` alone leaves it at its
initial value. -/
lemma foldl_getElem?_of_miss {α : Type} (g : List ℝ → α → List ℝ) (b : ℕ) :
    ∀ (l : List α) (init : List ℝ),
      (∀ buf x, x ∈ l → (g buf x)[b]? = buf[b]?) →
      (l.foldl g init)[b]? = init[b]?
  | [], _, _ => rfl
  | x :: l, init, h => by
    rw [List.foldl_cons,
      foldl_getElem?_of_miss g b l (g init x)
        (fun buf y hy => h buf y (List.mem_cons_of_mem x hy)),
      h init x (List.mem_cons_self x l)]

/-- A byte no loop iteration stores into keeps its initial fill value. -/
lemma disp2D_getElem?_untouched {canvasW canvasH objW objH : ℕ}
    {radius bezelWidth maxDisp : ℝ} {table : List ℝ} {b : ℕ}
    (h : ∀ x1 y1 : ℕ, x1 < objW → y1 < objH →
      dispInBezel objW objH radius bezelWidth x1 y1 →
      ((b:ℤ) < dispByteIdx canvasW canvasH objW objH x1 y1
        ∨ dispByteIdx canvasW canvasH objW objH x1 y1 + 3 < (b:ℤ))) :
    (calculateDisplacementMap2D canvasW canvasH objW objH radius bezelWidth
        maxDisp table)[b]? = (dispInitBytes canvasW canvasH)[b]? := by
  unfold calculateDisplacementMap2D
  refine foldl_getElem?_of_miss _ _ _ _ (fun buf y1 hy1 => ?_)
  refine foldl_getElem?_of_miss _ _ _ _ (fun buf2 x1 hx1 => ?_)
  exact dispApplyWrite_getElem?_miss
    (h x1 y1 (List.mem_range.1 hx1) (List.mem_range.1 hy1))

/-- The initial fill holds `128,128,0,255` at each byte, by its position in
the four-byte pixel group. -/
lemma dispInitBytes_getElem? (canvasW canvasH b : ℕ)
    (hb : b < 4 * (canvasW * canvasH)) :
    (dispInitBytes canvasW canvasH)[b]?
      = some (if b % 4 = 0 then 128 else if b % 4 = 1 then 128
          else if b % 4 = 2 then 0 else 255) := by
  unfold dispInitBytes
  rw [List.getElem?_ofFn]
  simp [List.ofFnNthVal, hb]

/-- C4, counterexample: with the 5×1 object overhanging the 1×3 canvas
(radius 1, bezel 1), the loop iteration `x1 = 1` is in the bezel band and
its flat-index store aliases into canvas pixel `(0,0)` — a pixel strictly
outside the object's bounding box — leaving its G byte at 255, not the
neutral fill's 128. -/
theorem disp2D_neutral_claim_counterexample :
    (¬ (0 ≤ ((0:ℕ):ℝ) - objOff 1 5 ∧ ((0:ℕ):ℝ) - objOff 1 5 < (5:ℝ)
        ∧ 0 ≤ ((0:ℕ):ℝ) - objOff 3 1 ∧ ((0:ℕ):ℝ) - objOff 3 1 < (1:ℝ)))
      ∧ (calculateDisplacementMap2D 1 3 5 1 1 1 10 [10])[1]? = some 255
      ∧ ((255:ℝ) ≠ 128) := by
  refine ⟨?_, ?_, by norm_num⟩
  · rintro ⟨-, -, h3, -⟩
    norm_num [objOff] at h3
  · have hin : dispInBezel 5 1 1 1 1 0 := by
      constructor <;> norm_num [cornerDistSq, cornerCoord, max_def]
    have hm0 : ∀ buf : List ℝ,
        (dispApplyWrite 1 3 5 1 1 1 10 [10] buf 0 0)[1]? = buf[1]? :=
      fun buf => dispApplyWrite_getElem?_miss (fun _ => by norm_num [dispByteIdx])
    have hm2 : ∀ buf : List ℝ,
        (dispApplyWrite 1 3 5 1 1 1 10 [10] buf 2 0)[1]? = buf[1]? :=
      fun buf => dispApplyWrite_getElem?_miss (fun _ => by norm_num [dispByteIdx])
    have hm3 : ∀ buf : List ℝ,
        (dispApplyWrite 1 3 5 1 1 1 10 [10] buf 3 0)[1]? = buf[1]? :=
      fun buf => dispApplyWrite_getElem?_miss (fun _ => by norm_num [dispByteIdx])
    have hm4 : ∀ buf : List ℝ,
        (dispApplyWrite 1 3 5 1 1 1 10 [10] buf 4 0)[1]? = buf[1]? :=
      fun buf => dispApplyWrite_getElem?_miss (fun _ => by norm_num [dispByteIdx])
    have hlen : (dispApplyWrite 1 3 5 1 1 1 10 [10] (dispInitBytes 1 3) 0 0).length
        = 12 := by
      rw [dispApplyWrite_length]
      simp [dispInitBytes]
    have hg : (dispBandValue 5 1 1 1 10 [10] 1 0).g = 255 := by
      norm_num [dispBandValue, cornerDistSq, cornerCoord, bezelIndexClamped,
        Real.sqrt_one, max_def, min_def, List.getD]
    unfold calculateDisplacementMap2D
    rw [show List.range 1 = [0] from rfl, show List.range 5 = [0, 1, 2, 3, 4] from rfl]
    simp only [List.foldl_cons, List.foldl_nil]
    rw [hm4, hm3, hm2,
      dispApplyWrite_getElem?_g hin (by norm_num [dispByteIdx]) (by rw [hlen]; norm_num),
      hg]

/-- C4, amended: when the object fits inside the canvas with integral
centering offsets (dimensions no larger than the canvas, differences even),
every loop store lands at its geometrically intended pixel, and every canvas
pixel strictly outside the bezel band — outside the object's bounding box,
or with squared corner distance above `(radius+1)^2` or below the clamped
`(radius-bezelWidth)^2` — keeps all four bytes of the neutral fill
`(128,128,0,255)`. -/
theorem disp2D_outside_band_neutral_fitting (canvasW canvasH objW objH : ℕ)
    (radius bezelWidth maxDisp : ℝ) (table : List ℝ) (px py : ℕ)
    (hoW : objW ≤ canvasW) (hoH : objH ≤ canvasH)
    (heW : 2 ∣ canvasW - objW) (heH : 2 ∣ canvasH - objH)
    (hpx : px < canvasW) (hpy : py < canvasH)
    (h :
      (¬ (0 ≤ (px:ℝ) - objOff canvasW objW
          ∧ (px:ℝ) - objOff canvasW objW < (objW:ℝ)
          ∧ 0 ≤ (py:ℝ) - objOff canvasH objH
          ∧ (py:ℝ) - objOff canvasH objH < (objH:ℝ)))
      ∨ cornerDistSq objW objH radius ((px:ℝ) - objOff canvasW objW)
          ((py:ℝ) - objOff canvasH objH) > (radius + 1) * (radius + 1)
      ∨ cornerDistSq objW objH radius ((px:ℝ) - objOff canvasW objW)
          ((py:ℝ) - objOff canvasH objH)
          < max 0 ((radius - bezelWidth) * (radius - bezelWidth))) :
    (calculateDisplacementMap2D canvasW canvasH objW objH radius bezelWidth
        maxDisp table)[4*(py*canvasW + px)]? = some 128
      ∧ (calculateDisplacementMap2D canvasW canvasH objW objH radius bezelWidth
          maxDisp table)[4*(py*canvasW + px) + 1]? = some 128
      ∧ (calculateDisplacementMap2D canvasW canvasH objW objH radius bezelWidth
          maxDisp table)[4*(py*canvasW + px) + 2]? = some 0
      ∧ (calculateDisplacementMap2D canvasW canvasH objW objH radius bezelWidth
          maxDisp table)[4*(py*canvasW + px) + 3]? = some 255 := by
  obtain ⟨ox, hox⟩ := heW
  obtain ⟨oy, hoy⟩ := heH
  have hoffW : objOff canvasW objW = (ox:ℝ) := by
    unfold objOff
    rw [← Nat.cast_sub hoW, hox]
    push_cast
    ring
  have hoffH : objOff canvasH objH = (oy:ℝ) := by
    unfold objOff
    rw [← Nat.cast_sub hoH, hoy]
    push_cast
    ring
  have hidx : ∀ x1 y1 : ℕ, dispByteIdx canvasW canvasH objW objH x1 y1
      = ((4*((oy + y1)*canvasW + (ox + x1)) : ℕ) : ℤ) := by
    intro x1 y1
    unfold dispByteIdx
    have e1 : (canvasH:ℤ) - (objH:ℤ) = 2*(oy:ℤ) := by omega
    have e2 : (canvasW:ℤ) - (objW:ℤ) = 2*(ox:ℤ) := by omega
    rw [e1, e2]
    push_cast
    ring
  have hcW : 0 < canvasW := by omega
  have hne : ∀ x1 y1 : ℕ, x1 < objW → y1 < objH →
      dispInBezel objW objH radius bezelWidth x1 y1 →
      py*canvasW + px ≠ (oy + y1)*canvasW + (ox + x1) := by
    intro x1 y1 hx1 hy1 hin hpq
    have hoxlt : ox + x1 < canvasW := by omega
    have e1 : (py*canvasW + px)/canvasW = py := by
      rw [Nat.mul_comm py canvasW, Nat.mul_add_div hcW, Nat.div_eq_of_lt hpx,
        Nat.add_zero]
    have e2 : ((oy + y1)*canvasW + (ox + x1))/canvasW = oy + y1 := by
      rw [Nat.mul_comm (oy + y1) canvasW, Nat.mul_add_div hcW,
        Nat.div_eq_of_lt hoxlt, Nat.add_zero]
    have hyeq : py = oy + y1 := by rw [← e1, hpq, e2]
    have hxeq : px = ox + x1 := by
      have h2 := hpq
      rw [hyeq] at h2
      exact Nat.add_left_cancel h2
    have hcx : (px:ℝ) - objOff canvasW objW = (x1:ℝ) := by
      rw [hoffW, hxeq]
      push_cast
      ring
    have hcy : (py:ℝ) - objOff canvasH objH = (y1:ℝ) := by
      rw [hoffH, hyeq]
      push_cast
      ring
    rcases h with hbb | hband | hband
    · exact hbb ⟨by rw [hcx]; positivity, by rw [hcx]; exact_mod_cast hx1,
        by rw [hcy]; positivity, by rw [hcy]; exact_mod_cast hy1⟩
    · rw [hcx, hcy] at hband
      exact absurd hin.1 (not_le.2 hband)
    · rw [hcx, hcy] at hband
      exact absurd hin.2 (not_le.2 hband)
  have hp : py*canvasW + px < canvasW*canvasH := by
    have h1 : py*canvasW + px < py*canvasW + canvasW := Nat.add_lt_add_left hpx _
    have h2 : py*canvasW + canvasW = (py+1)*canvasW := by ring
    have h3 : (py+1)*canvasW ≤ canvasH*canvasW := Nat.mul_le_mul_right canvasW hpy
    calc py*canvasW + px < (py+1)*canvasW := h2 ▸ h1
      _ ≤ canvasH*canvasW := h3
      _ = canvasW*canvasH := Nat.mul_comm _ _
  have hmiss : ∀ k : ℕ, k ≤ 3 → ∀ x1 y1 : ℕ, x1 < objW → y1 < objH →
      dispInBezel objW objH radius bezelWidth x1 y1 →
      (((4*(py*canvasW + px) + k : ℕ)):ℤ)
          < dispByteIdx canvasW canvasH objW objH x1 y1
        ∨ dispByteIdx canvasW canvasH objW objH x1 y1 + 3
            < ((4*(py*canvasW + px) + k : ℕ):ℤ) := by
    intro k hk x1 y1 hx1 hy1 hin
    have hq := hne x1 y1 hx1 hy1 hin
    rw [hidx x1 y1]
    omega
  refine ⟨?_, ?_, ?_, ?_⟩
  · rw [disp2D_getElem?_untouched (fun x1 y1 hx1 hy1 hin => by
        have hq := hne x1 y1 hx1 hy1 hin
        rw [hidx x1 y1]
        omega),
      dispInitBytes_getElem? _ _ _ (by omega)]
    norm_num [Nat.mul_mod_right]
  · rw [disp2D_getElem?_untouched (hmiss 1 (by norm_num)),
      dispInitBytes_getElem? _ _ _ (by omega)]
    norm_num [show (4*(py*canvasW + px) + 1) % 4 = 1 from by omega]
  · rw [disp2D_getElem?_untouched (hmiss 2 (by norm_num)),
      dispInitBytes_getElem? _ _ _ (by omega)]
    norm_num [show (4*(py*canvasW + px) + 2) % 4 = 2 from by omega]
  · rw [disp2D_getElem?_untouched (hmiss 3 (by norm_num)),
      dispInitBytes_getElem? _ _ _ (by omega)]
    norm_num [show (4*(py*canvasW + px) + 3) % 4 = 3 from by omega]

/-- Witness for the amended C4 at a concrete input: the center pixel of a
200×140 object on a 200×140 canvas with radius 70 and bezel width 30 lies
strictly inside the inner bound, and all four of its bytes hold the neutral
fill. -/
theorem disp2D_outside_band_neutral_fitting_witness :
    ((200:ℕ) ≤ 200 ∧ (140:ℕ) ≤ 140 ∧ 2 ∣ 200 - 200 ∧ 2 ∣ 140 - 140
      ∧ (100:ℕ) < 200 ∧ (70:ℕ) < 140
      ∧ cornerDistSq 200 140 70 (((100:ℕ):ℝ) - objOff 200 200)
          (((70:ℕ):ℝ) - objOff 140 140) < max 0 ((70 - 30) * (70 - 30)))
      ∧ (calculateDisplacementMap2D 200 140 200 140 70 30 5
          [1, 2])[4*(70*200 + 100)]? = some 128
      ∧ (calculateDisplacementMap2D 200 140 200 140 70 30 5
          [1, 2])[4*(70*200 + 100) + 1]? = some 128
      ∧ (calculateDisplacementMap2D 200 140 200 140 70 30 5
          [1, 2])[4*(70*200 + 100) + 2]? = some 0
      ∧ (calculateDisplacementMap2D 200 140 200 140 70 30 5
          [1, 2])[4*(70*200 + 100) + 3]? = some 255 := by
  have h : cornerDistSq 200 140 70 (((100:ℕ):ℝ) - objOff 200 200)
      (((70:ℕ):ℝ) - objOff 140 140) < max 0 ((70 - 30) * (70 - 30)) := by
    norm_num [cornerDistSq, cornerCoord, objOff, max_def]
  have hmain := disp2D_outside_band_neutral_fitting 200 140 200 140 70 30 5
    [1, 2] 100 70 (by norm_num) (by norm_num) (by norm_num) (by norm_num)
    (by norm_num) (by norm_num) (Or.inr (Or.inr h))
  exact ⟨⟨by norm_num, by norm_num, by norm_num, by norm_num, by norm_num,
    by norm_num, h⟩, hmain.1, hmain.2.1, hmain.2.2.1, hmain.2.2.2⟩

/-- C6: a specular pixel whose squared corner distance is strictly below
`(radius - 1.5)^2` is outside the thin edge band and keeps alpha 0. -/
theorem spec_alpha_zero_inside_band (objW objH : ℕ)
    (radius bezelWidth angle : ℝ) (px py : ℕ)
    (h : cornerDistSq objW objH radius (px:ℝ) (py:ℝ)
        < (radius - 1.5) * (radius - 1.5)) :
    (specPixel objW objH radius bezelWidth angle px py).a = 0 := by
  simp only [specPixel]
  rw [if_neg]
  rintro ⟨-, h2⟩
  rw [max_eq_right (mul_self_nonneg (radius - 1.5))] at h2
  exact absurd h2 (not_le.2 h)

/-- Witness for C6 at a concrete input: the center pixel of a 200×140
object with radius 70 is far inside the edge band and has alpha 0. -/
theorem spec_alpha_zero_inside_band_witness :
    cornerDistSq 200 140 70 ((100:ℕ):ℝ) ((70:ℕ):ℝ) < (70 - 1.5) * (70 - 1.5)
      ∧ (specPixel 200 140 70 30 (Real.pi/3) 100 70).a = 0 := by
  have h : cornerDistSq 200 140 70 ((100:ℕ):ℝ) ((70:ℕ):ℝ)
      < (70 - 1.5) * (70 - 1.5) := by
    norm_num [cornerDistSq, cornerCoord]
  exact ⟨h, spec_alpha_zero_inside_band 200 140 70 30 (Real.pi/3) 100 70 h⟩

/-- The fold base 0 keeps `maxAbs` non-negative. -/
lemma maxAbs_nonneg (l : List ℝ) : 0 ≤ maxAbs l := by
  induction l with
  | nil => exact le_refl 0
  | cons a l ih => exact le_trans ih (le_max_right _ _)

/-- A clamped store `max 0 (min 255 e)` always lands in `[0, 255]`. -/
lemma clamp_byte_range (e : ℝ) : 0 ≤ max 0 (min 255 e) ∧ max 0 (min 255 e) ≤ 255 :=
  ⟨le_max_left _ _, max_le (by norm_num) (min_le_left _ _)⟩

/-- C8: the divisor `updateFilter` passes (`maximumDisplacement || 1`) is
always strictly positive, and — with the in-loop `maxDisp > 0` guard — every
channel of every displacement pixel is a well-defined value in `[0, 255]`;
no ill-defined value reaches the pixel buffer. -/
theorem disp2D_divisor_guarded_and_bounded (table : List ℝ)
    (canvasW canvasH objW objH : ℕ) (radius bezelWidth maxDisp : ℝ)
    (px py : ℕ) :
    0 < normDivisor table
      ∧ (disp2DPixel canvasW canvasH objW objH radius bezelWidth maxDisp
          table px py).inByteRange := by
  constructor
  · rw [normDivisor]
    by_cases h : maxAbs table = 0
    · rw [if_pos h]; norm_num
    · rw [if_neg h]
      exact lt_of_le_of_ne (maxAbs_nonneg table) (Ne.symm h)
  · simp only [disp2DPixel]
    by_cases hbb : 0 ≤ (px:ℝ) - objOff canvasW objW
        ∧ (px:ℝ) - objOff canvasW objW < (objW:ℝ)
        ∧ 0 ≤ (py:ℝ) - objOff canvasH objH
        ∧ (py:ℝ) - objOff canvasH objH < (objH:ℝ)
    · rw [if_pos hbb]
      by_cases hband : cornerDistSq objW objH radius
            ((px:ℝ) - objOff canvasW objW) ((py:ℝ) - objOff canvasH objH)
            ≤ (radius + 1) * (radius + 1)
          ∧ cornerDistSq objW objH radius
            ((px:ℝ) - objOff canvasW objW) ((py:ℝ) - objOff canvasH objH)
            ≥ max 0 ((radius - bezelWidth) * (radius - bezelWidth))
      · rw [if_pos hband]
        refine ⟨(clamp_byte_range _).1, (clamp_byte_range _).2,
          (clamp_byte_range _).1, (clamp_byte_range _).2, ?_⟩
        norm_num [Rgba.inByteRange]
      · rw [if_neg hband]
        norm_num [Rgba.inByteRange]
    · rw [if_neg hbb]
      norm_num [Rgba.inByteRange]

/-- C9: for a non-empty table the clamped bezel index is within
`[0, tableLength - 1]` (so the `.toNat` lookup index is in range), even
though at `ratio = 1` the unclamped floor equals the table length. -/
theorem bezelIndex_within_bounds (len : ℕ) (frac : ℝ) (hlen : 1 ≤ len) :
    0 ≤ bezelIndexClamped len frac
      ∧ bezelIndexClamped len frac ≤ (len:ℤ) - 1
      ∧ (bezelIndexClamped len frac).toNat < len
      ∧ (frac = 1 → ⌊frac * (len:ℝ)⌋ = (len:ℤ)) := by
  have h0 : 0 ≤ bezelIndexClamped len frac := le_max_left _ _
  have h1 : bezelIndexClamped len frac ≤ (len:ℤ) - 1 :=
    max_le (by omega) (min_le_right _ _)
  refine ⟨h0, h1, by omega, ?_⟩
  intro h
  rw [h, one_mul]
  exact Int.floor_natCast len

/-- Witness for C9 at a concrete input: the default 128-entry table, looked
up at bezel ratio 1. -/
theorem bezelIndex_within_bounds_witness :
    (1 ≤ 128)
      ∧ 0 ≤ bezelIndexClamped 128 1
      ∧ bezelIndexClamped 128 1 ≤ (128:ℤ) - 1
      ∧ (bezelIndexClamped 128 1).toNat < 128
      ∧ ⌊(1:ℝ) * ((128:ℕ):ℝ)⌋ = ((128:ℕ):ℤ) := by
  have h := bezelIndex_within_bounds 128 1 (by norm_num)
  exact ⟨by norm_num, h.1, h.2.1, h.2.2.1, h.2.2.2 rfl⟩

end

end LiquidGlass
